import Mathlib

/-!
Verification of the beartype excerpt: the PEP 593 `Annotated` cause sleuth
(`beartype._decor._code._pep._error._peperrorannotated`), the builtin-type
catalog (`beartype._data.cls.datacls`), and the callable-origin utilities
(`beartype._util.func.utilfuncfile`), shallowly embedded in Lean.
-/

namespace Beartype

/-- Concrete universe of Python runtime values (piths) used by the embedding.
Integers and strings suffice for every property under study. -/
inductive PyVal where
  | int (n : Int)
  | str (s : String)
deriving DecidableEq

/-- Concrete universe of Python classes against which `isinstance` is tested. -/
inductive PyClass where
  | intCls
  | strCls
  | objectCls
deriving DecidableEq

/-- Host `isinstance` test over the concrete universes. -/
def isinstance : PyVal → PyClass → Bool
  | _, .objectCls => true
  | .int _, .intCls => true
  | .str _, .strCls => true
  | _, _ => false

/-- Name of a class, used when rendering class-mismatch causes. -/
def PyClass.name : PyClass → String
  | .intCls => "int"
  | .strCls => "str"
  | .objectCls => "object"

/-- Modelled from the spec: the external text-rendering collaborator
`get_cause_object_representation` (a `represent(value) -> string` service for
error messages; its module is not part of the excerpt). -/
def get_cause_object_representation : PyVal → String
  | .int n => toString n
  | .str s => "\"" ++ s ++ "\""

/-- A beartype data validator (`beartype.vale._valeissub.SubscriptedIs`): a
boolean predicate over a pith together with the machine-renderable
representation Python's `repr` yields for it. -/
structure SubscriptedIs where
  is_valid : PyVal → Bool
  repr : String

/-- One entry of an ANNOTATED hint's metadata tuple: either a beartype
validator or an arbitrary non-`SubscriptedIs` object (carried by its
`repr` string, all the sleuth ever reads from it). -/
inductive Metadatum where
  | subIs (v : SubscriptedIs)
  | other (r : String)

/-- An ANNOTATED (PEP 593) hint: the annotated class (`get_hint_pep593_type`),
the ordered metadata sequence (`get_hint_pep593_metadata`), and the hint's own
`repr` string used in raise messages. -/
structure AnnotatedHint where
  type : PyClass
  metadata : List Metadatum
  repr : String

/-- The cause-sleuth traversal context restricted to the fields
`get_cause_or_none_annotated` reads: current pith, current (ANNOTATED) hint,
and the exception label. -/
structure CauseSleuth where
  pith : PyVal
  hint : AnnotatedHint
  exception_label : String

/-- Sleuth context after `sleuth.permute(hint=hint_annotated)`: the hint is
replaced by the stripped class, pith and label are preserved. -/
structure TypeSleuth where
  pith : PyVal
  hint : PyClass
  exception_label : String

/-- The `permute` operation of `CauseSleuth`, specialised to replacing the
hint by the stripped non-typing class. -/
def CauseSleuth.permute (s : CauseSleuth) (cls : PyClass) : TypeSleuth :=
  ⟨s.pith, cls, s.exception_label⟩

/-- Modelled from the spec: `get_cause_or_none_type`, the CLASS diagnosis from
`_peperrortype` (not part of the excerpt). Spec section 4.2: if the pith fails
instance-of the origin class, return a one-line cause citing the expected
class and the pith's representation; else return None. -/
def get_cause_or_none_type (s : TypeSleuth) : Option String :=
  if isinstance s.pith s.hint then
    none
  else
    some (get_cause_object_representation s.pith ++ " not instance of " ++
      s.hint.name ++ ".")

/-- Exception message built by the raising branch of
`get_cause_or_none_annotated` (source lines 76-80, wording kept verbatim,
including the doubled "not not"). -/
def raise_message (label hintRepr mdRepr : String) : String :=
  label ++ " PEP 593 type hint " ++ hintRepr ++ " argument " ++ mdRepr ++
    " not not subscription of \"beartype.vale.Is*\" class."

/-- Cause string built when a validator rejects the pith (source lines
86-89). -/
def violates_message (pith : PyVal) (vRepr : String) : String :=
  get_cause_object_representation pith ++ " violates data constraint " ++
    vRepr ++ "."

/-- The `for hint_metadatum in get_hint_pep593_metadata(sleuth.hint)` loop of
`get_cause_or_none_annotated` (source lines 70-96): for each metadatum in
order, raise if it is not a `SubscriptedIs`, return a cause if its predicate
rejects the pith, otherwise continue; return `none` after the loop. An
`Except.error` value models the raised
`_BeartypeCallHintPepRaiseException`. -/
def annotated_loop (pith : PyVal) (hintRepr label : String) :
    List Metadatum → Except String (Option String)
  | [] => .ok none
  | .other r :: _ => .error (raise_message label hintRepr r)
  | .subIs v :: rest =>
    if v.is_valid pith then
      annotated_loop pith hintRepr label rest
    else
      .ok (some (violates_message pith v.repr))

/-- Embedding of `get_cause_or_none_annotated` (source lines 38-96): if the
pith is not an instance of the annotated class, defer to the CLASS getter on
the permuted context; otherwise run the metadata loop. -/
def get_cause_or_none_annotated (s : CauseSleuth) :
    Except String (Option String) :=
  let hint_annotated := s.hint.type
  if isinstance s.pith hint_annotated = false then
    .ok (get_cause_or_none_type (s.permute hint_annotated))
  else
    annotated_loop s.pith s.hint.repr s.exception_label s.hint.metadata

/-- Whether a metadatum is a `SubscriptedIs` instance. -/
def Metadatum.isSubIs : Metadatum → Bool
  | .subIs _ => true
  | .other _ => false

/-- Whether every metadata entry is a `SubscriptedIs` instance. -/
def allSubIs (l : List Metadatum) : Bool :=
  l.all Metadatum.isSubIs

/-- Whether a metadatum, viewed as a validator, accepts the pith
(non-validators vacuously accept; only used under `allSubIs`). -/
def Metadatum.validOn (pith : PyVal) : Metadatum → Bool
  | .subIs v => v.is_valid pith
  | .other _ => true

/-- Modelled from the spec: the compiler's acceptance rule for ANNOTATED
(spec section 4.1): the pith is accepted iff it is an instance of the
annotated class origin and every `SubscriptedIs` in metadata evaluates true
on the pith. -/
def annotated_compile_accepts (s : CauseSleuth) : Bool :=
  isinstance s.pith s.hint.type &&
    s.hint.metadata.all (Metadatum.validOn s.pith)

/-! Helper lemmas about the metadata loop. -/

/-- Under well-formed metadata the loop never raises: it returns some
`Except.ok` value. -/
lemma annotated_loop_ok (pith : PyVal) (hintRepr label : String) :
    ∀ l : List Metadatum, allSubIs l = true →
      ∃ o, annotated_loop pith hintRepr label l = .ok o := by
  intro l
  induction l with
  | nil => intro _; exact ⟨none, rfl⟩
  | cons m rest ih =>
    intro h
    simp only [allSubIs, List.all_cons, Bool.and_eq_true] at h
    cases m with
    | other r => simp [Metadatum.isSubIs] at h
    | subIs v =>
      by_cases hv : v.is_valid pith = true
      · obtain ⟨o, ho⟩ := ih h.2
        exact ⟨o, by simp [annotated_loop, hv, ho]⟩
      · exact ⟨some (violates_message pith v.repr),
          by simp [annotated_loop, hv]⟩

/-- Under well-formed metadata the loop returns `Except.ok none` exactly when
every validator accepts the pith. -/
lemma annotated_loop_none_iff (pith : PyVal) (hintRepr label : String) :
    ∀ l : List Metadatum, allSubIs l = true →
      (annotated_loop pith hintRepr label l = .ok none ↔
        l.all (Metadatum.validOn pith) = true) := by
  intro l
  induction l with
  | nil => intro _; simp [annotated_loop]
  | cons m rest ih =>
    intro h
    simp only [allSubIs, List.all_cons, Bool.and_eq_true] at h
    cases m with
    | other r => simp [Metadatum.isSubIs] at h
    | subIs v =>
      by_cases hv : v.is_valid pith = true
      · simpa [annotated_loop, hv, Metadatum.validOn] using ih h.2
      · simp [annotated_loop, hv, Metadatum.validOn]

/-- Under well-formed metadata the loop returns a cause exactly when some
validator rejects the pith. -/
lemma annotated_loop_some_iff (pith : PyVal) (hintRepr label : String)
    (l : List Metadatum) (h : allSubIs l = true) :
    (∃ c, annotated_loop pith hintRepr label l = .ok (some c)) ↔
      l.all (Metadatum.validOn pith) = false := by
  obtain ⟨o, ho⟩ := annotated_loop_ok pith hintRepr label l h
  have hnone := annotated_loop_none_iff pith hintRepr label l h
  constructor
  · rintro ⟨c, hc⟩
    by_contra hall
    rw [Bool.not_eq_false] at hall
    rw [hnone.mpr hall] at hc
    exact Option.noConfusion (Except.ok.inj hc)
  · intro hall
    cases o with
    | none =>
      rw [ho] at hnone
      simp only [true_iff] at hnone
      rw [hnone] at hall
      exact Bool.noConfusion hall
    | some c => exact ⟨c, ho⟩

/-! Claim theorems for the ANNOTATED cause sleuth. -/

/-- C1: for an ANNOTATED hint whose metadata entries are all `SubscriptedIs`
validators, `get_cause_or_none_annotated` returns `None` iff the pith is an
instance of the annotated class and every validator accepts it (the
compiler's acceptance rule), and returns a cause string exactly when that
conjunction fails. -/
theorem annotated_consistency_law (s : CauseSleuth)
    (h : allSubIs s.hint.metadata = true) :
    (get_cause_or_none_annotated s = .ok none ↔
      annotated_compile_accepts s = true) ∧
    ((∃ c, get_cause_or_none_annotated s = .ok (some c)) ↔
      annotated_compile_accepts s = false) := by
  by_cases hinst : isinstance s.pith s.hint.type = true
  · have hrw : get_cause_or_none_annotated s =
        annotated_loop s.pith s.hint.repr s.exception_label
          s.hint.metadata := by
      simp [get_cause_or_none_annotated, hinst]
    constructor
    · rw [hrw, annotated_loop_none_iff _ _ _ _ h]
      simp [annotated_compile_accepts, hinst]
    · rw [hrw, annotated_loop_some_iff _ _ _ _ h]
      simp [annotated_compile_accepts, hinst]
  · rw [Bool.not_eq_true] at hinst
    have hrw : get_cause_or_none_annotated s =
        .ok (get_cause_or_none_type (s.permute s.hint.type)) := by
      simp [get_cause_or_none_annotated, hinst]
    have htype : get_cause_or_none_type (s.permute s.hint.type) =
        some (get_cause_object_representation s.pith ++ " not instance of " ++
          s.hint.type.name ++ ".") := by
      simp [get_cause_or_none_type, CauseSleuth.permute, hinst]
    constructor
    · rw [hrw, htype]
      simp [annotated_compile_accepts, hinst]
    · rw [hrw, htype]
      constructor
      · intro _
        simp [annotated_compile_accepts, hinst]
      · intro _
        exact ⟨_, rfl⟩

/-- Witness for C1: hint = ANNOTATED(int, [x > 0]), pith = 5: all metadata are
validators, the diagnosis returns `None`, and the compiled check accepts. -/
theorem annotated_consistency_law_witness :
    get_cause_or_none_annotated
      ⟨PyVal.int 5,
        ⟨PyClass.intCls,
          [Metadatum.subIs
            ⟨fun p => match p with | .int n => decide (0 < n) | _ => false,
              "Is[x > 0]"⟩],
          "Annotated[int, Is[x > 0]]"⟩,
        "label"⟩ = .ok none :=
  (annotated_consistency_law _ (by decide)).1.mpr (by decide)

/-- When every validator in a leading block accepts the pith, the loop skips
that block. -/
lemma annotated_loop_append_accepted (pith : PyVal) (hintRepr label : String)
    (accepted : List SubscriptedIs) (l : List Metadatum)
    (hacc : ∀ w ∈ accepted, w.is_valid pith = true) :
    annotated_loop pith hintRepr label (accepted.map Metadatum.subIs ++ l) =
      annotated_loop pith hintRepr label l := by
  induction accepted with
  | nil => simp
  | cons w ws ih =>
    have hw : w.is_valid pith = true := hacc w (by simp)
    simp only [List.map_cons, List.cons_append, annotated_loop, hw, if_true]
    exact ih (fun x hx => hacc x (by simp [hx]))

/-- C2: when the pith is not an instance of the annotated class,
`get_cause_or_none_annotated` returns exactly the CLASS diagnosis of the
context permuted to the stripped class, and no metadata entry influences the
result (the result is the same for every metadata list). -/
theorem annotated_class_mismatch_defers (s : CauseSleuth)
    (h : isinstance s.pith s.hint.type = false) :
    get_cause_or_none_annotated s =
      .ok (get_cause_or_none_type (s.permute s.hint.type)) ∧
    ∀ md : List Metadatum,
      get_cause_or_none_annotated
        ⟨s.pith, ⟨s.hint.type, md, s.hint.repr⟩, s.exception_label⟩ =
        get_cause_or_none_annotated s := by
  constructor
  · simp [get_cause_or_none_annotated, h]
  · intro md
    simp [get_cause_or_none_annotated, h, CauseSleuth.permute]

/-- Witness for C2: a string pith against ANNOTATED(int, ...): the result is
the permuted CLASS diagnosis. -/
theorem annotated_class_mismatch_defers_witness :
    get_cause_or_none_annotated
        ⟨PyVal.str "oops",
          ⟨PyClass.intCls, [Metadatum.other "junk"], "Annotated[int, junk]"⟩,
          "label"⟩ =
      .ok (get_cause_or_none_type
        (CauseSleuth.permute
          ⟨PyVal.str "oops",
            ⟨PyClass.intCls, [Metadatum.other "junk"], "Annotated[int, junk]"⟩,
            "label"⟩
          PyClass.intCls)) :=
  (annotated_class_mismatch_defers _ (by decide)).1

/-- C3: when the pith is an instance of the annotated class and the metadata
is a block of accepting validators followed by a rejecting validator `v`
followed by anything at all, the cause cites `v`'s representation — the first
rejecting validator in declaration order — and nothing after `v` determines
the result. -/
theorem annotated_first_rejecting_validator (s : CauseSleuth)
    (accepted : List SubscriptedIs) (v : SubscriptedIs)
    (rest : List Metadatum)
    (hinst : isinstance s.pith s.hint.type = true)
    (hmeta : s.hint.metadata =
      accepted.map Metadatum.subIs ++ Metadatum.subIs v :: rest)
    (hacc : ∀ w ∈ accepted, w.is_valid s.pith = true)
    (hv : v.is_valid s.pith = false) :
    get_cause_or_none_annotated s =
      .ok (some (violates_message s.pith v.repr)) ∧
    ∃ a b, violates_message s.pith v.repr = a ++ (v.repr ++ b) := by
  constructor
  · rw [get_cause_or_none_annotated]
    simp only [hinst, Bool.true_eq_false, if_false, hmeta]
    rw [annotated_loop_append_accepted _ _ _ _ _ hacc]
    simp [annotated_loop, hv]
  · refine ⟨get_cause_object_representation s.pith ++
      " violates data constraint ", ".", ?_⟩
    simp [violates_message, String.append_assoc]

/-- Always-accepting validator used by witnesses. -/
def vAccept : SubscriptedIs := ⟨fun _ => true, "Is[v1]"⟩

/-- Always-rejecting validator used by witnesses. -/
def vReject : SubscriptedIs := ⟨fun _ => false, "Is[v2]"⟩

/-- Second always-rejecting validator used by witnesses. -/
def vReject2 : SubscriptedIs := ⟨fun _ => false, "Is[v3]"⟩

/-- Witness for C3: with validators [v1 accepts, v2 rejects, v3 rejects] the
cause cites v2. -/
theorem annotated_first_rejecting_validator_witness :
    get_cause_or_none_annotated
        ⟨PyVal.int 7,
          ⟨PyClass.intCls,
            [Metadatum.subIs vAccept, Metadatum.subIs vReject,
              Metadatum.subIs vReject2],
            "Annotated[int, v1, v2, v3]"⟩,
          "label"⟩ =
      .ok (some (violates_message (PyVal.int 7) "Is[v2]")) :=
  (annotated_first_rejecting_validator _ [vAccept] vReject
    [Metadatum.subIs vReject2] (by decide) rfl
    (by
      intro w hw
      rw [List.mem_singleton] at hw
      subst hw
      rfl)
    rfl).1

/-- C5: with well-formed metadata the sleuth terminates with a returned value
(`Except.ok`); the raising branch is unreachable. -/
theorem annotated_never_raises (s : CauseSleuth)
    (h : allSubIs s.hint.metadata = true) :
    (∃ o, get_cause_or_none_annotated s = .ok o) ∧
    ∀ e, get_cause_or_none_annotated s ≠ .error e := by
  have hok : ∃ o, get_cause_or_none_annotated s = .ok o := by
    by_cases hinst : isinstance s.pith s.hint.type = true
    · obtain ⟨o, ho⟩ :=
        annotated_loop_ok s.pith s.hint.repr s.exception_label
          s.hint.metadata h
      exact ⟨o, by simp [get_cause_or_none_annotated, hinst, ho]⟩
    · rw [Bool.not_eq_true] at hinst
      exact ⟨get_cause_or_none_type (s.permute s.hint.type),
        by simp [get_cause_or_none_annotated, hinst]⟩
  refine ⟨hok, ?_⟩
  intro e he
  obtain ⟨o, ho⟩ := hok
  rw [ho] at he
  exact Except.noConfusion he

/-- Witness for C5: a rejecting validator yields a returned cause, not an
exception. -/
theorem annotated_never_raises_witness :
    ∃ o, get_cause_or_none_annotated
        ⟨PyVal.int 7,
          ⟨PyClass.intCls, [Metadatum.subIs vReject], "Annotated[int, v2]"⟩,
          "label"⟩ = .ok o :=
  (annotated_never_raises _ (by decide)).1

/-- Sleuth context refuting C4: the pith is an instance of the annotated
class, the metadata holds a rejecting validator followed by a
non-`SubscriptedIs` entry. -/
def c4Sleuth : CauseSleuth :=
  ⟨PyVal.int (-5),
    ⟨PyClass.intCls, [Metadatum.subIs vReject, Metadatum.other "junk"],
      "Annotated[int, v2, junk]"⟩,
    "label"⟩

/-- Counterexample to C4: on `c4Sleuth` the metadata contains a
non-`SubscriptedIs` entry and the pith is an instance of the annotated class,
yet the function returns an ordinary validation-rejection cause and raises
nothing: the rejecting validator is met before the malformed entry. -/
theorem annotated_malformed_not_always_raising :
    allSubIs c4Sleuth.hint.metadata = false ∧
    isinstance c4Sleuth.pith c4Sleuth.hint.type = true ∧
    get_cause_or_none_annotated c4Sleuth =
      .ok (some (violates_message (PyVal.int (-5)) "Is[v2]")) ∧
    ∀ e, get_cause_or_none_annotated c4Sleuth ≠ .error e := by
  have hr : get_cause_or_none_annotated c4Sleuth =
      .ok (some (violates_message (PyVal.int (-5)) "Is[v2]")) := rfl
  refine ⟨rfl, rfl, hr, ?_⟩
  intro e he
  rw [hr] at he
  exact Except.noConfusion he

/-- C4 amended: the exception is raised exactly when the loop reaches the
malformed entry — when every metadata entry before the first
non-`SubscriptedIs` entry is a validator accepting the pith, the function
raises `_BeartypeCallHintPepRaiseException` with the source's message. -/
theorem annotated_malformed_raises (s : CauseSleuth)
    (accepted : List SubscriptedIs) (r : String) (rest : List Metadatum)
    (hinst : isinstance s.pith s.hint.type = true)
    (hmeta : s.hint.metadata =
      accepted.map Metadatum.subIs ++ Metadatum.other r :: rest)
    (hacc : ∀ w ∈ accepted, w.is_valid s.pith = true) :
    get_cause_or_none_annotated s =
      .error (raise_message s.exception_label s.hint.repr r) := by
  rw [get_cause_or_none_annotated]
  simp only [hinst, Bool.true_eq_false, if_false, hmeta]
  rw [annotated_loop_append_accepted _ _ _ _ _ hacc]
  rfl

/-- Witness for the amended C4: an accepting validator followed by a
malformed entry raises. -/
theorem annotated_malformed_raises_witness :
    get_cause_or_none_annotated
        ⟨PyVal.int 5,
          ⟨PyClass.intCls,
            [Metadatum.subIs vAccept, Metadatum.other "junk"],
            "Annotated[int, v1, junk]"⟩,
          "label"⟩ =
      .error (raise_message "label" "Annotated[int, v1, junk]" "junk") :=
  annotated_malformed_raises _ [vAccept] "junk" [] (by decide) rfl
    (by
      intro w hw
      rw [List.mem_singleton] at hw
      subst hw
      rfl)

/-- State-passing form of the metadata loop: every statement of the source
only reads the sleuth, so each step passes the context through unchanged. -/
def annotated_loop_run (s : CauseSleuth) :
    List Metadatum → Except String (Option String) × CauseSleuth
  | [] => (.ok none, s)
  | .other r :: _ =>
    (.error (raise_message s.exception_label s.hint.repr r), s)
  | .subIs v :: rest =>
    if v.is_valid s.pith then
      annotated_loop_run s rest
    else
      (.ok (some (violates_message s.pith v.repr)), s)

/-- State-passing form of `get_cause_or_none_annotated`: returns the result
together with the sleuth context as it stands after the call. -/
def get_cause_or_none_annotated_run (s : CauseSleuth) :
    Except String (Option String) × CauseSleuth :=
  let hint_annotated := s.hint.type
  if isinstance s.pith hint_annotated = false then
    (.ok (get_cause_or_none_type (s.permute hint_annotated)), s)
  else
    annotated_loop_run s s.hint.metadata

/-- The state-passing loop leaves the context unchanged and computes the pure
loop's result. -/
lemma annotated_loop_run_eq (s : CauseSleuth) :
    ∀ l : List Metadatum,
      annotated_loop_run s l =
        (annotated_loop s.pith s.hint.repr s.exception_label l, s) := by
  intro l
  induction l with
  | nil => rfl
  | cons m rest ih =>
    cases m with
    | other r => rfl
    | subIs v =>
      by_cases hv : v.is_valid s.pith = true
      · simp [annotated_loop_run, annotated_loop, hv, ih]
      · simp [annotated_loop_run, annotated_loop, hv]

/-- C6: evaluating the sleuth leaves every field of the context — pith, hint
(annotated class, metadata, representation) and exception label — unchanged;
its only product is the returned result. -/
theorem annotated_no_mutation (s : CauseSleuth) :
    (get_cause_or_none_annotated_run s).2 = s ∧
    (get_cause_or_none_annotated_run s).1 = get_cause_or_none_annotated s := by
  by_cases hinst : isinstance s.pith s.hint.type = false
  · constructor
    · simp [get_cause_or_none_annotated_run, hinst]
    · simp [get_cause_or_none_annotated_run, get_cause_or_none_annotated,
        hinst]
  · constructor
    · simp [get_cause_or_none_annotated_run, hinst, annotated_loop_run_eq]
    · simp [get_cause_or_none_annotated_run, get_cause_or_none_annotated,
        hinst, annotated_loop_run_eq]

/-- A data validator whose predicate may additionally observe a call number,
modelling a Python `is_valid` whose behaviour could drift across repeated
calls; call number `t` is the only state the host could thread in. -/
structure SubscriptedIsT where
  is_valid : Nat → PyVal → Bool
  repr : String

/-- Metadata entry over call-indexed validators. -/
inductive MetadatumT where
  | subIs (v : SubscriptedIsT)
  | other (r : String)

/-- ANNOTATED hint over call-indexed validators. -/
structure AnnotatedHintT where
  type : PyClass
  metadata : List MetadatumT
  repr : String

/-- Sleuth context over call-indexed validators. -/
structure CauseSleuthT where
  pith : PyVal
  hint : AnnotatedHintT
  exception_label : String

/-- The metadata loop evaluated during call number `t`. -/
def annotated_loop_at (t : Nat) (pith : PyVal) (hintRepr label : String) :
    List MetadatumT → Except String (Option String)
  | [] => .ok none
  | .other r :: _ => .error (raise_message label hintRepr r)
  | .subIs v :: rest =>
    if v.is_valid t pith then
      annotated_loop_at t pith hintRepr label rest
    else
      .ok (some (violates_message pith v.repr))

/-- `get_cause_or_none_annotated` evaluated during call number `t`. -/
def get_cause_or_none_annotated_at (t : Nat) (s : CauseSleuthT) :
    Except String (Option String) :=
  let hint_annotated := s.hint.type
  if isinstance s.pith hint_annotated = false then
    .ok (get_cause_or_none_type
      (⟨s.pith, hint_annotated, s.exception_label⟩ : TypeSleuth))
  else
    annotated_loop_at t s.pith s.hint.repr s.exception_label s.hint.metadata

/-- Loop-level determinism: call-independent validators give call-independent
loop results. -/
lemma annotated_loop_at_det (pith : PyVal) (hintRepr label : String)
    (t t' : Nat) :
    ∀ l : List MetadatumT,
      (∀ v, MetadatumT.subIs v ∈ l →
        ∀ u u' : Nat, v.is_valid u pith = v.is_valid u' pith) →
      annotated_loop_at t pith hintRepr label l =
        annotated_loop_at t' pith hintRepr label l := by
  intro l
  induction l with
  | nil => intro _; rfl
  | cons m rest ih =>
    intro hdet
    cases m with
    | other r => rfl
    | subIs v =>
      have hv : v.is_valid t pith = v.is_valid t' pith :=
        hdet v (by simp) t t'
      by_cases ht : v.is_valid t pith = true
      · have ht' : v.is_valid t' pith = true := by rw [← hv]; exact ht
        simp only [annotated_loop_at, ht, ht', if_true]
        exact ih (fun w hw u u' => hdet w (by simp [hw]) u u')
      · have ht' : ¬ v.is_valid t' pith = true := by rw [← hv]; exact ht
        simp [annotated_loop_at, ht, ht']

/-- C8: whenever every validator in the metadata behaves identically across
calls (the deterministic case), any two calls of the sleuth on the same
context return the identical result, cause string included. -/
theorem annotated_repeated_calls_stable (s : CauseSleuthT)
    (hdet : ∀ v, MetadatumT.subIs v ∈ s.hint.metadata →
      ∀ u u' : Nat, v.is_valid u s.pith = v.is_valid u' s.pith)
    (t t' : Nat) :
    get_cause_or_none_annotated_at t s =
      get_cause_or_none_annotated_at t' s := by
  by_cases hinst : isinstance s.pith s.hint.type = false
  · simp [get_cause_or_none_annotated_at, hinst]
  · simp only [get_cause_or_none_annotated_at, hinst, if_false]
    exact annotated_loop_at_det s.pith s.hint.repr s.exception_label t t'
      s.hint.metadata hdet

/-- Witness for C8: a call-independent positivity validator yields the same
result on call 0 and call 1. -/
theorem annotated_repeated_calls_stable_witness :
    get_cause_or_none_annotated_at 0
        ⟨PyVal.int (-5),
          ⟨PyClass.intCls,
            [MetadatumT.subIs
              ⟨fun _ p => match p with | .int n => decide (0 < n) | _ => false,
                "Is[x > 0]"⟩],
            "Annotated[int, Is[x > 0]]"⟩,
          "label"⟩ =
      get_cause_or_none_annotated_at 1
        ⟨PyVal.int (-5),
          ⟨PyClass.intCls,
            [MetadatumT.subIs
              ⟨fun _ p => match p with | .int n => decide (0 < n) | _ => false,
                "Is[x > 0]"⟩],
            "Annotated[int, Is[x > 0]]"⟩,
          "label"⟩ :=
  annotated_repeated_calls_stable _
    (by
      intro v hv
      rw [List.mem_singleton] at hv
      cases hv
      intro u u'
      rfl)
    0 1

/-- A Python object as the builtins scan of `datacls._init` sees it: an
identity and whether the object is a type. The builtins module's contents are
interpreter state, so the dict is a parameter of the embedding. -/
structure PyObj where
  oid : Nat
  isType : Bool
deriving DecidableEq

/-- The frozenset comprehension of `_init` (datacls.py lines 157-172): the
values of the builtins dict that are types and whose names are not
dunder-named. -/
def TYPES_BUILTIN_of (dict : List (String × PyObj)) : Finset PyObj :=
  ((dict.filter fun nv =>
      nv.2.isType && !(nv.1.startsWith "__" && nv.1.endsWith "__")).map
    Prod.snd).toFinset

/-- Module state of `beartype._data.cls.datacls`, restricted to the one
global the claim concerns. -/
structure DataclsState where
  TYPES_BUILTIN : Option (Finset PyObj)

/-- Binding of `TYPES_BUILTIN` before `_init` runs: `None`
(datacls.py line 115). -/
def datacls_initial : DataclsState := ⟨none⟩

/-- The `_init` step (datacls.py lines 145-172): rebinds the global
`TYPES_BUILTIN` to the frozenset built from the builtins dict. -/
def datacls_init (dict : List (String × PyObj)) (_s : DataclsState) :
    DataclsState :=
  ⟨some (TYPES_BUILTIN_of dict)⟩

/-- Module import of `datacls`: the initial bindings followed by the single
`_init()` call at line 176. -/
def datacls_load (dict : List (String × PyObj)) : DataclsState :=
  datacls_init dict datacls_initial

/-- C7: loading the module performs the one `_init` step, after which
`TYPES_BUILTIN` is the frozen set holding exactly the builtins-module
attributes that are types and not dunder-named; re-running the
initialization step changes nothing. -/
theorem TYPES_BUILTIN_spec (dict : List (String × PyObj)) :
    (datacls_load dict).TYPES_BUILTIN = some (TYPES_BUILTIN_of dict) ∧
    (∀ x : PyObj, x ∈ TYPES_BUILTIN_of dict ↔
      ∃ n : String, (n, x) ∈ dict ∧ x.isType = true ∧
        (n.startsWith "__" && n.endsWith "__") = false) ∧
    datacls_init dict (datacls_load dict) = datacls_load dict := by
  refine ⟨rfl, ?_, rfl⟩
  intro x
  simp only [TYPES_BUILTIN_of, List.mem_toFinset, List.mem_map,
    List.mem_filter, Bool.and_eq_true, Bool.not_eq_true']
  constructor
  · rintro ⟨⟨n, v⟩, ⟨hmem, htype, hname⟩, hsnd⟩
    subst hsnd
    exact ⟨n, hmem, htype, hname⟩
  · rintro ⟨n, hmem, htype, hname⟩
    exact ⟨(n, x), ⟨hmem, htype, hname⟩, rfl⟩

/-- A Python code object as the filename getter sees it: its `co_filename`
attribute, `none` when absent (PyPy builtins lack it). -/
structure CodeObj where
  co_filename : Option String

/-- A callable as the filename getter sees it: its underlying code object,
`none` for C-based callables. -/
structure Func where
  codeobj : Option CodeObj

/-- Modelled from the spec: `get_func_codeobj_or_none` from
`utilfunccodeobj` (an external introspection collaborator): the code object
underlying the callable if that callable is pure-Python, else None. -/
def get_func_codeobj_or_none (func : Func) : Option CodeObj :=
  func.codeobj

/-- Embedding of `get_func_filename_or_none` (utilfuncfile.py lines 69-171);
`cache` is the key-membership test of `linecache.cache`. A falsy
`co_filename` (absent or empty) yields `none`; a `<`-and-`>`-bracketed
filename absent from the linecache yields `none`; anything else is returned
as is. -/
def get_func_filename_or_none (cache : String → Bool) (func : Func) :
    Option String :=
  match get_func_codeobj_or_none func with
  | none => none
  | some func_codeobj =>
    match func_codeobj.co_filename with
    | none => none
    | some func_filename =>
      if func_filename = "" ∨
          (func_filename.front = '<' ∧ func_filename.back = '>' ∧
            cache func_filename = false) then
        none
      else
        some func_filename

/-- Embedding of `is_func_file` (utilfuncfile.py lines 44-66). -/
def is_func_file (cache : String → Bool) (func : Func) : Bool :=
  (get_func_filename_or_none cache func).isSome

/-- C9: `is_func_file` holds exactly when `get_func_filename_or_none` is
non-None on the same callable; a callable without a code object is never a
file-backed callable. -/
theorem is_func_file_iff_filename (cache : String → Bool) (func : Func) :
    (is_func_file cache func = true ↔
      get_func_filename_or_none cache func ≠ none) ∧
    (func.codeobj = none → is_func_file cache func = false) := by
  constructor
  · simp [is_func_file, Option.isSome_iff_ne_none]
  · intro h
    simp [is_func_file, get_func_filename_or_none,
      get_func_codeobj_or_none, h]

/-- Witness for C9: a code-object-less callable is not file-backed. -/
theorem is_func_file_iff_filename_witness :
    is_func_file (fun _ => false) ⟨none⟩ = false :=
  (is_func_file_iff_filename (fun _ => false) ⟨none⟩).2 rfl

/-- Unfolding of `get_func_filename_or_none` on a callable whose code object
carries a filename. -/
lemma get_func_filename_or_none_some (cache : String → Bool) (co : CodeObj)
    (fn : String) (hco : co.co_filename = some fn) :
    get_func_filename_or_none cache ⟨some co⟩ =
      if fn = "" ∨ (fn.front = '<' ∧ fn.back = '>' ∧ cache fn = false) then
        none
      else
        some fn := by
  simp only [get_func_filename_or_none, get_func_codeobj_or_none]
  rw [hco]

/-- C10: for a pure-Python callable with a non-empty `co_filename`: when the
filename is `<`-and-`>`-bracketed the getter returns it iff it is a linecache
key (else `none`); when it is not bracketed that way the filename is
returned unchanged whatever the cache holds. -/
theorem filename_bracket_linecache (cache : String → Bool) (co : CodeObj)
    (fn : String) (hco : co.co_filename = some fn) (hne : fn ≠ "") :
    ((fn.front = '<' ∧ fn.back = '>') →
      get_func_filename_or_none cache ⟨some co⟩ =
        if cache fn = true then some fn else none) ∧
    (¬(fn.front = '<' ∧ fn.back = '>') →
      get_func_filename_or_none cache ⟨some co⟩ = some fn) := by
  rw [get_func_filename_or_none_some cache co fn hco]
  constructor
  · rintro ⟨h1, h2⟩
    by_cases hc : cache fn = true
    · simp [hc, hne]
    · rw [Bool.not_eq_true] at hc
      simp [hc, hne, h1, h2]
  · intro h
    rw [if_neg]
    rintro (hemp | ⟨h1, h2, _⟩)
    · exact hne hemp
    · exact h ⟨h1, h2⟩

/-- Witness for C10: `<string>` is bracketed and present in a one-key cache,
so it is returned. -/
theorem filename_bracket_linecache_witness :
    get_func_filename_or_none (fun s => s == "<string>")
        ⟨some ⟨some "<string>"⟩⟩ =
      if (fun s => s == "<string>") "<string>" = true then some "<string>"
      else none :=
  (filename_bracket_linecache (fun s => s == "<string>") ⟨some "<string>"⟩
    "<string>" rfl (by decide)).1 ⟨by decide, by decide⟩

end Beartype
